import Mathlib

/-!
Verification of `kubectl_mcp_tool/utils/ssh_wrapper.py`, a command-transformation
utility that rewrites a local command into an SSH invocation on a remote host
when remote mode is configured.

The embedding is shallow: Python strings are Lean `String`s (`List Char` at the
character level), environment variables are an `Env` record of `Option String`,
`raise ValueError` is `Except.error`, and the module-level singleton cell is
threaded explicitly as an `Option SSHCommandWrapper` value.  `os.path.expanduser`
is an external function of the platform and is taken as a parameter.
-/

/-! ### Model of `shlex.quote` and POSIX `shlex` splitting -/

/-- Whitespace characters that separate words in POSIX `shlex` splitting
(Python `shlex.whitespace`, the string of space, tab, carriage return, newline). -/
def isWS (c : Char) : Bool :=
  c = ' ' || c = '\t' || c = '\r' || c = '\n'

/-- Characters `shlex.quote` leaves unquoted: the complement of its unsafe-character
regex under `re.ASCII`, i.e. ASCII alphanumerics, underscore, and the punctuation
`@ % + = : , . / -`. -/
def isSafeChar (c : Char) : Bool :=
  c.isAlphanum || c = '_' || c = '@' || c = '%' || c = '+' || c = '=' ||
    c = ':' || c = ',' || c = '.' || c = '/' || c = '-'

/-- Per-character effect of `s.replace("'", "'\"'\"'")` inside `shlex.quote`:
a single quote becomes quote, double quote, quote, double quote, quote;
every other character is kept. -/
def quoteRepl (c : Char) : List Char :=
  if c = '\'' then ['\'', '"', '\'', '"', '\''] else [c]

/-- Body rewriting of `shlex.quote`: `s.replace("'", "'\"'\"'")` applied to every
character of the string. -/
def escQuote (s : List Char) : List Char :=
  s.flatMap quoteRepl

/-- Python `shlex.quote` at the character-list level: the empty string becomes
two single quotes; a non-empty all-safe string is returned unchanged; anything
else is wrapped in single quotes with embedded single quotes escaped. -/
def shlexQuoteL (s : List Char) : List Char :=
  if s = [] then ['\'', '\'']
  else if s.all isSafeChar then s
  else '\'' :: (escQuote s ++ ['\''])

/-- Python `shlex.quote` on strings. -/
def shlexQuote (s : String) : String :=
  ⟨shlexQuoteL s.data⟩

/-- Tokenizer states of POSIX-mode `shlex` scanning: outside quotes, inside
single quotes, inside double quotes, or just after a backslash (from outside
quotes or from inside double quotes). -/
inductive SplitState where
  | normal
  | single
  | double
  | escNormal
  | escDouble
  deriving DecidableEq

/-- Modelled from the spec: the remote side shell-parses the final wrapped
argument back into words ("shell-parsed by the remote side", Python
`shlex.split` in POSIX mode).  `cur` is the word accumulated so far (`none`
when no word has started, so that `''` yields an empty word).  Unterminated
quotes or a trailing backslash are errors (`none`), as in `shlex`. -/
def splitPosixAux : SplitState → Option (List Char) → List Char → Option (List (List Char))
  | .normal, none, [] => some []
  | .normal, some w, [] => some [w]
  | .normal, cur, c :: rest =>
    if isWS c then
      match cur with
      | none => splitPosixAux .normal none rest
      | some w => (splitPosixAux .normal none rest).map (fun ws => w :: ws)
    else if c = '\'' then splitPosixAux .single (some (cur.getD [])) rest
    else if c = '"' then splitPosixAux .double (some (cur.getD [])) rest
    else if c = '\\' then splitPosixAux .escNormal (some (cur.getD [])) rest
    else splitPosixAux .normal (some (cur.getD [] ++ [c])) rest
  | .single, _, [] => none
  | .single, cur, c :: rest =>
    if c = '\'' then splitPosixAux .normal cur rest
    else splitPosixAux .single (some (cur.getD [] ++ [c])) rest
  | .double, _, [] => none
  | .double, cur, c :: rest =>
    if c = '"' then splitPosixAux .normal cur rest
    else if c = '\\' then splitPosixAux .escDouble cur rest
    else splitPosixAux .double (some (cur.getD [] ++ [c])) rest
  | .escNormal, _, [] => none
  | .escNormal, cur, c :: rest =>
    splitPosixAux .normal (some (cur.getD [] ++ [c])) rest
  | .escDouble, _, [] => none
  | .escDouble, cur, c :: rest =>
    if c = '"' || c = '\\' then splitPosixAux .double (some (cur.getD [] ++ [c])) rest
    else splitPosixAux .double (some (cur.getD [] ++ ['\\', c])) rest

/-- Modelled from the spec: `shlex.split` on a string, the remote side's parsing
of the single command argument. -/
def shlexSplit (s : String) : Option (List String) :=
  (splitPosixAux .normal none s.data).map (fun ws => ws.map String.mk)

/-- Character-level join with single spaces (Python `' '.join`). -/
def sepJoinL : List (List Char) → List Char
  | [] => []
  | [w] => w
  | w :: ws => w ++ ' ' :: sepJoinL ws

/-- Python `' '.join` on strings. -/
def joinArgs (l : List String) : String :=
  ⟨sepJoinL (l.map String.data)⟩

/-! ### Configuration model -/

/-- Snapshot of the five environment variables read by
`SSHCommandWrapper.__init__`; `none` models an unset variable. -/
structure Env where
  KUBECTL_SSH_ENABLED : Option String
  KUBECTL_SSH_USER : Option String
  KUBECTL_SSH_HOST : Option String
  KUBECTL_SSH_PORT : Option String
  KUBECTL_SSH_KEY : Option String
  deriving DecidableEq

/-- Resolved configuration fields of the `SSHCommandWrapper` class. -/
structure SSHCommandWrapper where
  ssh_enabled : Bool
  ssh_user : String
  ssh_host : String
  ssh_port : String
  ssh_key : String
  deriving DecidableEq

/-- Python `str.lower`, modelled character by character (the strings compared
against are ASCII). -/
def lowerStr (s : String) : String :=
  ⟨s.data.map Char.toLower⟩

/-- Truthiness of the enable flag, line 31 of the source:
`os.environ.get('KUBECTL_SSH_ENABLED', 'false').lower() in ('true', '1', 'yes')`. -/
def parseEnabled (s : String) : Bool :=
  lowerStr s = "true" || lowerStr s = "1" || lowerStr s = "yes"

/-- `SSHCommandWrapper._validate_config`: raises `ValueError` when the username
is empty, then when the host is empty.  (The key-file existence check only logs
a warning and is not modelled.) -/
def _validate_config (w : SSHCommandWrapper) : Except String Unit :=
  if w.ssh_user = "" then
    .error "KUBECTL_SSH_USER environment variable is required when SSH mode is enabled"
  else if w.ssh_host = "" then
    .error "KUBECTL_SSH_HOST environment variable is required when SSH mode is enabled"
  else
    .ok ()

/-- `SSHCommandWrapper.__init__`: reads the five environment variables with
their defaults and, when SSH mode is enabled, validates the configuration
(propagating the `ValueError` as `Except.error`). -/
def SSHCommandWrapper.init (env : Env) : Except String SSHCommandWrapper :=
  let w : SSHCommandWrapper :=
    { ssh_enabled := parseEnabled (env.KUBECTL_SSH_ENABLED.getD "false")
      ssh_user := env.KUBECTL_SSH_USER.getD ""
      ssh_host := env.KUBECTL_SSH_HOST.getD ""
      ssh_port := env.KUBECTL_SSH_PORT.getD "22"
      ssh_key := env.KUBECTL_SSH_KEY.getD "" }
  if w.ssh_enabled then
    match _validate_config w with
    | .error e => .error e
    | .ok _ => .ok w
  else
    .ok w

/-! ### Command transformer -/

/-- `SSHCommandWrapper.wrap_command`, with state threaded explicitly:
`expanduser` stands for `os.path.expanduser`; the result triple carries the
final values of `self` and `cmd` (the method never assigns to either — local
mode returns `cmd` itself, remote mode builds a fresh `ssh_cmd` list) together
with the returned wrapped command. -/
def wrap_command (expanduser : String → String) (self : SSHCommandWrapper)
    (cmd : List String) : SSHCommandWrapper × List String × List String :=
  if self.ssh_enabled = false then
    (self, cmd, cmd)
  else
    let ssh_cmd : List String := ["ssh"]
    let ssh_cmd := if self.ssh_port ≠ "" ∧ self.ssh_port ≠ "22"
      then ssh_cmd ++ ["-p", self.ssh_port] else ssh_cmd
    let ssh_cmd := if self.ssh_key ≠ ""
      then ssh_cmd ++ ["-i", expanduser self.ssh_key] else ssh_cmd
    let ssh_cmd := ssh_cmd ++
      ["-o", "StrictHostKeyChecking=no", "-o", "UserKnownHostsFile=/dev/null",
        "-o", "LogLevel=ERROR"]
    let ssh_cmd := ssh_cmd ++ [self.ssh_user ++ "@" ++ self.ssh_host]
    let remote_command := joinArgs (cmd.map shlexQuote)
    let ssh_cmd := ssh_cmd ++ [remote_command]
    (self, cmd, ssh_cmd)

/-- Return value of `wrap_command` (spec name `wrap`). -/
def wrap (expanduser : String → String) (self : SSHCommandWrapper)
    (cmd : List String) : List String :=
  (wrap_command expanduser self cmd).2.2

/-- `SSHCommandWrapper.wrap_shell_command`, with state threaded explicitly:
the pair carries the final value of `self` together with the returned string.
`p₀`–`p₃` are the successive values of the local `ssh_prefix` string. -/
def wrap_shell_command (expanduser : String → String) (self : SSHCommandWrapper)
    (cmd : String) : SSHCommandWrapper × String :=
  if self.ssh_enabled = false then
    (self, cmd)
  else
    let p₀ : String := "ssh"
    let p₁ := if self.ssh_port ≠ "" ∧ self.ssh_port ≠ "22"
      then p₀ ++ " -p " ++ self.ssh_port else p₀
    let p₂ := if self.ssh_key ≠ ""
      then p₁ ++ " -i " ++ shlexQuote (expanduser self.ssh_key) else p₁
    let p₃ := p₂ ++ " -o StrictHostKeyChecking=no -o UserKnownHostsFile=/dev/null -o LogLevel=ERROR"
    let wrapped_cmd := p₃ ++ " " ++ self.ssh_user ++ "@" ++ self.ssh_host ++ " " ++ shlexQuote cmd
    (self, wrapped_cmd)

/-- Return value of `wrap_shell_command` (spec name `wrapShell`). -/
def wrapShell (expanduser : String → String) (self : SSHCommandWrapper)
    (cmd : String) : String :=
  (wrap_shell_command expanduser self cmd).2

/-- Property `SSHCommandWrapper.is_enabled`. -/
def is_enabled (self : SSHCommandWrapper) : Bool :=
  self.ssh_enabled

/-- Result dictionary of `SSHCommandWrapper.get_connection_info`. -/
structure ConnectionInfo where
  enabled : Bool
  user : Option String
  host : Option String
  port : Option String
  key : Option String
  deriving DecidableEq

/-- `SSHCommandWrapper.get_connection_info`: each credential field is the real
value when SSH is enabled and `None` otherwise. -/
def get_connection_info (self : SSHCommandWrapper) : ConnectionInfo :=
  { enabled := self.ssh_enabled
    user := if self.ssh_enabled then some self.ssh_user else none
    host := if self.ssh_enabled then some self.ssh_host else none
    port := if self.ssh_enabled then some self.ssh_port else none
    key := if self.ssh_enabled then some self.ssh_key else none }

/-! ### Module-level singleton -/

/-- `get_ssh_wrapper`: the singleton accessor, with the global
`_ssh_wrapper_instance` cell passed in and the updated cell returned alongside
the instance.  Construction errors from `SSHCommandWrapper.__init__` propagate
and leave the cell `none` (in Python the assignment never happens). -/
def get_ssh_wrapper (env : Env) (inst : Option SSHCommandWrapper) :
    Except String (SSHCommandWrapper × Option SSHCommandWrapper) :=
  match inst with
  | some w => .ok (w, some w)
  | none =>
    match SSHCommandWrapper.init env with
    | .error e => .error e
    | .ok w => .ok (w, some w)

/-- `reset_ssh_wrapper`: sets the global `_ssh_wrapper_instance` cell back to
`None` unconditionally. -/
def reset_ssh_wrapper (_inst : Option SSHCommandWrapper) : Option SSHCommandWrapper :=
  none

/-! ### Helper lemmas: safe characters never collide with the tokenizer's
special characters -/

theorem isSafeChar_not_ws (c : Char) (h : isSafeChar c = true) : isWS c = false := by
  by_contra hw
  rw [Bool.not_eq_false] at hw
  have hc : c = ' ' ∨ c = '\t' ∨ c = '\r' ∨ c = '\n' := by
    simpa [isWS, or_assoc] using hw
  rcases hc with rfl | rfl | rfl | rfl <;> exact absurd h (by decide)

theorem isSafeChar_ne_quote (c : Char) (h : isSafeChar c = true) : c ≠ '\'' := by
  rintro rfl; exact absurd h (by decide)

theorem isSafeChar_ne_dquote (c : Char) (h : isSafeChar c = true) : c ≠ '"' := by
  rintro rfl; exact absurd h (by decide)

theorem isSafeChar_ne_backslash (c : Char) (h : isSafeChar c = true) : c ≠ '\\' := by
  rintro rfl; exact absurd h (by decide)

/-! ### Helper lemmas: scanning the output of `shlex.quote` recovers the
original word -/

theorem splitAux_safe_run (w : List Char) (hw : w.all isSafeChar) (acc rest) :
    splitPosixAux .normal (some acc) (w ++ rest) =
      splitPosixAux .normal (some (acc ++ w)) rest := by
  induction w generalizing acc with
  | nil => simp
  | cons c t ih =>
    have hct : isSafeChar c = true ∧ t.all isSafeChar := by simpa using hw
    have h1 := isSafeChar_not_ws c hct.1
    have h2 := isSafeChar_ne_quote c hct.1
    have h3 := isSafeChar_ne_dquote c hct.1
    have h4 := isSafeChar_ne_backslash c hct.1
    simp only [List.cons_append, splitPosixAux, h1, h2, h3, h4, if_false,
      Bool.false_eq_true, Option.getD_some, List.append_eq]
    rw [ih hct.2]
    simp

theorem splitAux_escQuote_run (w : List Char) (acc rest : List Char) :
    splitPosixAux .single (some acc) (escQuote w ++ '\'' :: rest) =
      splitPosixAux .normal (some (acc ++ w)) rest := by
  induction w generalizing acc with
  | nil => simp [escQuote, splitPosixAux]
  | cons c t ih =>
    by_cases hc : c = '\''
    · subst hc
      have he : escQuote ('\'' :: t) = '\'' :: '"' :: '\'' :: '"' :: '\'' :: escQuote t := by
        simp [escQuote, quoteRepl]
      rw [he]
      simp [splitPosixAux, ih, (by decide : isWS '"' = false), (by decide : isWS '\'' = false),
        (by decide : ('"' : Char) ≠ '\''), (by decide : ('"' : Char) ≠ '\\'),
        (by decide : ('\'' : Char) ≠ '"'), (by decide : ('\'' : Char) ≠ '\\')]
    · have he : escQuote (c :: t) = c :: escQuote t := by
        simp [escQuote, quoteRepl, hc]
      rw [he]
      simp only [List.cons_append, splitPosixAux, hc, if_false, Option.getD_some, List.append_eq]
      rw [ih (acc ++ [c])]
      simp

theorem splitAux_quote_word (w rest : List Char) :
    splitPosixAux .normal none (shlexQuoteL w ++ rest) =
      splitPosixAux .normal (some w) rest := by
  by_cases h0 : w = []
  · subst h0
    simp [shlexQuoteL, splitPosixAux, (by decide : isWS '\'' = false)]
  · by_cases hs : w.all isSafeChar
    · have hq : shlexQuoteL w = w := by simp [shlexQuoteL, h0, hs]
      rw [hq]
      obtain ⟨c, t, rfl⟩ : ∃ c t, w = c :: t := by
        cases w with
        | nil => exact absurd rfl h0
        | cons c t => exact ⟨c, t, rfl⟩
      have hct : isSafeChar c = true ∧ t.all isSafeChar := by simpa using hs
      have h1 := isSafeChar_not_ws c hct.1
      have h2 := isSafeChar_ne_quote c hct.1
      have h3 := isSafeChar_ne_dquote c hct.1
      have h4 := isSafeChar_ne_backslash c hct.1
      simp only [List.cons_append, splitPosixAux, h1, h2, h3, h4, if_false,
        Bool.false_eq_true, Option.getD_none, List.append_eq]
      rw [splitAux_safe_run t hct.2]
      simp
    · have hq : shlexQuoteL w = '\'' :: (escQuote w ++ ['\'']) := by
        simp [shlexQuoteL, h0, hs]
      rw [hq]
      simp only [List.cons_append, List.append_assoc, List.singleton_append, splitPosixAux,
        (by decide : isWS '\'' = false), Bool.false_eq_true, if_false, if_true,
        Option.getD_none, List.append_eq, List.nil_append]
      rw [splitAux_escQuote_run w [] rest]
      simp

theorem splitAux_sepJoin (cmds : List (List Char)) :
    splitPosixAux .normal none (sepJoinL (cmds.map shlexQuoteL)) = some cmds := by
  induction cmds with
  | nil => simp [sepJoinL, splitPosixAux]
  | cons w ws ih =>
    cases ws with
    | nil =>
      have hj : sepJoinL ([w].map shlexQuoteL) = shlexQuoteL w ++ [] := by
        simp [sepJoinL]
      rw [hj, splitAux_quote_word w []]
      simp [splitPosixAux]
    | cons w' ws' =>
      have hj : sepJoinL ((w :: w' :: ws').map shlexQuoteL) =
          shlexQuoteL w ++ ' ' :: sepJoinL ((w' :: ws').map shlexQuoteL) := by
        simp [sepJoinL]
      rw [hj, splitAux_quote_word]
      simp only [splitPosixAux, (by decide : isWS ' ' = true), if_true]
      rw [ih]
      rfl

theorem mapMkData (l : List String) : l.map (fun s => String.mk s.data) = l := by
  induction l with
  | nil => rfl
  | cons a t ih =>
    show String.mk a.data :: t.map _ = a :: t
    rw [ih]

theorem shlexSplit_joinArgs (cmd : List String) :
    shlexSplit (joinArgs (cmd.map shlexQuote)) = some cmd := by
  have hdata : (joinArgs (cmd.map shlexQuote)).data =
      sepJoinL ((cmd.map String.data).map shlexQuoteL) := by
    show sepJoinL ((cmd.map shlexQuote).map String.data) = _
    rw [List.map_map, List.map_map]
    rfl
  unfold shlexSplit
  rw [hdata, splitAux_sepJoin]
  show some ((cmd.map String.data).map String.mk) = some cmd
  exact congrArg some (by rw [List.map_map]; exact mapMkData cmd)

/-! ### Helper lemmas: configuration resolution and the port flag -/

theorem init_ok_val (env : Env) (w : SSHCommandWrapper)
    (h : SSHCommandWrapper.init env = .ok w) :
    w = ⟨parseEnabled (env.KUBECTL_SSH_ENABLED.getD "false"), env.KUBECTL_SSH_USER.getD "",
      env.KUBECTL_SSH_HOST.getD "", env.KUBECTL_SSH_PORT.getD "22",
      env.KUBECTL_SSH_KEY.getD ""⟩ := by
  unfold SSHCommandWrapper.init at h
  by_cases he : parseEnabled (env.KUBECTL_SSH_ENABLED.getD "false") = true
  · simp only [he, if_true] at h
    unfold _validate_config at h
    by_cases hu : env.KUBECTL_SSH_USER.getD "" = "" <;>
      by_cases hh : env.KUBECTL_SSH_HOST.getD "" = "" <;>
        simp [hu, hh, he] at h <;> simp [← h, he]
  · rw [Bool.not_eq_true] at he
    simp only [he, Bool.false_eq_true, if_false, Except.ok.injEq] at h
    simp [← h, he]

theorem wrap_port_flag_iff (expanduser : String → String) (w : SSHCommandWrapper)
    (cmd : List String) (h : w.ssh_enabled = true) :
    (∃ rest, wrap expanduser w cmd = "ssh" :: "-p" :: w.ssh_port :: rest) ↔
      (w.ssh_port ≠ "" ∧ w.ssh_port ≠ "22") := by
  constructor
  · intro hex
    by_cases hp : w.ssh_port ≠ "" ∧ w.ssh_port ≠ "22"
    · exact hp
    · exfalso
      obtain ⟨rest, hr⟩ := hex
      by_cases hk : w.ssh_key ≠ "" <;> simp [wrap, wrap_command, h, hp, hk] at hr
  · intro hp
    by_cases hk : w.ssh_key ≠ "" <;>
      simp [wrap, wrap_command, h, hp, hk]

theorem wrapShell_port_flag_iff (expanduser : String → String) (w : SSHCommandWrapper)
    (s : String) (h : w.ssh_enabled = true) :
    (∃ rest, wrapShell expanduser w s = "ssh -p " ++ w.ssh_port ++ rest) ↔
      (w.ssh_port ≠ "" ∧ w.ssh_port ≠ "22") := by
  have dsshp : ("ssh -p " : String).data = 's' :: 's' :: 'h' :: ' ' :: '-' :: 'p' :: ' ' :: [] := rfl
  have dsshi : ("ssh -i " : String).data = 's' :: 's' :: 'h' :: ' ' :: '-' :: 'i' :: ' ' :: [] := rfl
  have dssh : ("ssh" : String).data = 's' :: 's' :: 'h' :: [] := rfl
  have dmi : (" -i " : String).data = ' ' :: '-' :: 'i' :: ' ' :: [] := rfl
  constructor
  · intro hex
    by_cases hp : w.ssh_port ≠ "" ∧ w.ssh_port ≠ "22"
    · exact hp
    · exfalso
      obtain ⟨rest, hr⟩ := hex
      have hd := congrArg String.data hr
      by_cases hk : w.ssh_key ≠ "" <;>
        simp [wrapShell, wrap_shell_command, h, hp, hk, String.data_append,
          dsshp, dsshi, dssh, dmi] at hd
  · intro hp
    by_cases hk : w.ssh_key ≠ ""
    · refine ⟨" -i " ++ shlexQuote (expanduser w.ssh_key) ++
        " -o StrictHostKeyChecking=no -o UserKnownHostsFile=/dev/null -o LogLevel=ERROR" ++
        " " ++ w.ssh_user ++ "@" ++ w.ssh_host ++ " " ++ shlexQuote s, ?_⟩
      apply String.ext
      simp [wrapShell, wrap_shell_command, h, hp, hk, String.data_append,
        dsshp, dsshi, dssh, dmi]
    · refine ⟨" -o StrictHostKeyChecking=no -o UserKnownHostsFile=/dev/null -o LogLevel=ERROR" ++
        " " ++ w.ssh_user ++ "@" ++ w.ssh_host ++ " " ++ shlexQuote s, ?_⟩
      apply String.ext
      simp [wrapShell, wrap_shell_command, h, hp, hk, String.data_append,
        dsshp, dsshi, dssh, dmi]

/-! ### Claim theorems -/

/-- C1: with remote mode enabled, `wrap cmd` is exactly: `"ssh"`; then `"-p", port`
only if the port is non-empty and differs from `"22"`; then `"-i"`, the
home-expanded key path, only if a key is configured; then the three fixed option
pairs in order; then `user@host`; then, as final element, the original `cmd`
elements each shell-escaped and joined by single spaces. -/
theorem c1_wrap_remote_shape (expanduser : String → String) (w : SSHCommandWrapper)
    (cmd : List String) (h : w.ssh_enabled = true) :
    wrap expanduser w cmd =
      ["ssh"]
        ++ (if w.ssh_port ≠ "" ∧ w.ssh_port ≠ "22" then ["-p", w.ssh_port] else [])
        ++ (if w.ssh_key ≠ "" then ["-i", expanduser w.ssh_key] else [])
        ++ ["-o", "StrictHostKeyChecking=no", "-o", "UserKnownHostsFile=/dev/null",
            "-o", "LogLevel=ERROR"]
        ++ [w.ssh_user ++ "@" ++ w.ssh_host]
        ++ [joinArgs (cmd.map shlexQuote)] := by
  by_cases hp : w.ssh_port ≠ "" ∧ w.ssh_port ≠ "22" <;>
    by_cases hk : w.ssh_key ≠ "" <;>
      simp [wrap, wrap_command, h, hp, hk]

theorem c1_witness :
    wrap id ⟨true, "alice", "10.0.0.5", "22", ""⟩ ["kubectl", "get", "pods"] =
      ["ssh", "-o", "StrictHostKeyChecking=no", "-o", "UserKnownHostsFile=/dev/null",
        "-o", "LogLevel=ERROR", "alice@10.0.0.5", "kubectl get pods"] := by
  rw [c1_wrap_remote_shape id ⟨true, "alice", "10.0.0.5", "22", ""⟩ ["kubectl", "get", "pods"] rfl]
  decide

/-- C2: with remote mode disabled, `wrap` and `wrapShell` are the identity,
whatever the user, host, port and key settings hold. -/
theorem c2_local_identity (expanduser : String → String) (w : SSHCommandWrapper)
    (cmd : List String) (s : String) (h : w.ssh_enabled = false) :
    wrap expanduser w cmd = cmd ∧ wrapShell expanduser w s = s := by
  constructor <;> simp [wrap, wrap_command, wrapShell, wrap_shell_command, h]

theorem c2_witness :
    wrap id ⟨false, "alice", "10.0.0.5", "2222", "~/.ssh/key"⟩ ["kubectl", "get", "pods"] =
        ["kubectl", "get", "pods"] ∧
      wrapShell id ⟨false, "alice", "10.0.0.5", "2222", "~/.ssh/key"⟩
        "kubectl get pods | grep Running" = "kubectl get pods | grep Running" :=
  c2_local_identity id ⟨false, "alice", "10.0.0.5", "2222", "~/.ssh/key"⟩
    ["kubectl", "get", "pods"] "kubectl get pods | grep Running" rfl

/-- C3: in remote mode, the final element of `wrap cmd` is a single string whose
shell parsing (POSIX `shlex` splitting) reconstructs exactly the original
argument list `cmd`, for every `cmd` (spaces, quotes and metacharacters
included). -/
theorem c3_wrap_roundtrip (expanduser : String → String) (w : SSHCommandWrapper)
    (cmd : List String) (h : w.ssh_enabled = true) :
    ∃ j, (wrap expanduser w cmd).getLast? = some j ∧ shlexSplit j = some cmd := by
  refine ⟨joinArgs (cmd.map shlexQuote), ?_, shlexSplit_joinArgs cmd⟩
  simp [wrap, wrap_command, h, List.getLast?_concat]

theorem c3_witness :
    ∃ j, (wrap id ⟨true, "alice", "10.0.0.5", "22", ""⟩
        ["kubectl", "get", "po ds", "it's"]).getLast? = some j ∧
      shlexSplit j = some ["kubectl", "get", "po ds", "it's"] :=
  c3_wrap_roundtrip id ⟨true, "alice", "10.0.0.5", "22", ""⟩
    ["kubectl", "get", "po ds", "it's"] rfl

/-- C4: configuration resolution fails exactly when the enable flag is truthy and
the username or the host is empty; the username is checked first (its error
message is produced even when both are missing); otherwise construction
succeeds, and with the flag falsy it always succeeds. -/
theorem c4_validation (env : Env) :
    ((∃ e, SSHCommandWrapper.init env = .error e) ↔
        parseEnabled (env.KUBECTL_SSH_ENABLED.getD "false") = true ∧
          (env.KUBECTL_SSH_USER.getD "" = "" ∨ env.KUBECTL_SSH_HOST.getD "" = ""))
  ∧ (parseEnabled (env.KUBECTL_SSH_ENABLED.getD "false") = true →
      env.KUBECTL_SSH_USER.getD "" = "" →
        SSHCommandWrapper.init env =
          .error "KUBECTL_SSH_USER environment variable is required when SSH mode is enabled")
  ∧ (parseEnabled (env.KUBECTL_SSH_ENABLED.getD "false") = true →
      env.KUBECTL_SSH_USER.getD "" ≠ "" → env.KUBECTL_SSH_HOST.getD "" = "" →
        SSHCommandWrapper.init env =
          .error "KUBECTL_SSH_HOST environment variable is required when SSH mode is enabled")
  ∧ (parseEnabled (env.KUBECTL_SSH_ENABLED.getD "false") = true →
      env.KUBECTL_SSH_USER.getD "" ≠ "" → env.KUBECTL_SSH_HOST.getD "" ≠ "" →
        ∃ w, SSHCommandWrapper.init env = .ok w)
  ∧ (parseEnabled (env.KUBECTL_SSH_ENABLED.getD "false") = false →
      ∃ w, SSHCommandWrapper.init env = .ok w) := by
  unfold SSHCommandWrapper.init _validate_config
  by_cases he : parseEnabled (env.KUBECTL_SSH_ENABLED.getD "false") = true <;>
    by_cases hu : env.KUBECTL_SSH_USER.getD "" = "" <;>
      by_cases hh : env.KUBECTL_SSH_HOST.getD "" = "" <;>
        simp [he, hu, hh]

theorem c4_witness :
    SSHCommandWrapper.init ⟨some "true", none, some "10.0.0.5", none, none⟩ =
      .error "KUBECTL_SSH_USER environment variable is required when SSH mode is enabled" :=
  (c4_validation ⟨some "true", none, some "10.0.0.5", none, none⟩).2.1 (by decide) rfl

/-- C5: in remote mode the wrapped output carries an explicit `-p` flag pair
right after the program name if and only if the configured port string is
non-empty and not string-equal to `"22"`, for both `wrap` and `wrapShell`. -/
theorem c5_port_flag (expanduser : String → String) (w : SSHCommandWrapper)
    (cmd : List String) (s : String) (h : w.ssh_enabled = true) :
    ((∃ rest, wrap expanduser w cmd = "ssh" :: "-p" :: w.ssh_port :: rest) ↔
        (w.ssh_port ≠ "" ∧ w.ssh_port ≠ "22"))
  ∧ ((∃ rest, wrapShell expanduser w s = "ssh -p " ++ w.ssh_port ++ rest) ↔
        (w.ssh_port ≠ "" ∧ w.ssh_port ≠ "22")) :=
  ⟨wrap_port_flag_iff expanduser w cmd h, wrapShell_port_flag_iff expanduser w s h⟩

theorem c5_witness :
    (∃ rest, wrap id ⟨true, "u", "h", "022", ""⟩ ["ls"] = "ssh" :: "-p" :: "022" :: rest) ∧
      ¬(∃ rest, wrap id ⟨true, "u", "h", "22", ""⟩ ["ls"] = "ssh" :: "-p" :: "22" :: rest) := by
  constructor
  · exact (c5_port_flag id ⟨true, "u", "h", "022", ""⟩ ["ls"] "ls" rfl).1.mpr (by decide)
  · intro hex
    exact ((c5_port_flag id ⟨true, "u", "h", "22", ""⟩ ["ls"] "ls" rfl).1.mp hex).2 rfl

/-- C6: `get_connection_info` always reports the enabled flag; when enabled the
user, host, port and key entries hold the configured values, and when disabled
all four are `none`, even for a wrapper resolved from an environment whose
user/host/port/key variables are set. -/
theorem c6_connection_info (env : Env) (w : SSHCommandWrapper)
    (_h : SSHCommandWrapper.init env = .ok w) :
    (get_connection_info w).enabled = w.ssh_enabled
  ∧ (w.ssh_enabled = true → get_connection_info w =
      ⟨true, some w.ssh_user, some w.ssh_host, some w.ssh_port, some w.ssh_key⟩)
  ∧ (w.ssh_enabled = false → get_connection_info w = ⟨false, none, none, none, none⟩) := by
  refine ⟨rfl, ?_, ?_⟩ <;> intro he <;> simp [get_connection_info, he]

theorem c6_witness :
    get_connection_info ⟨false, "alice", "10.0.0.5", "2222", "~/.ssh/key"⟩ =
      ⟨false, none, none, none, none⟩ :=
  (c6_connection_info ⟨some "no", some "alice", some "10.0.0.5", some "2222", some "~/.ssh/key"⟩
    ⟨false, "alice", "10.0.0.5", "2222", "~/.ssh/key"⟩ rfl).2.2 rfl

/-- C7: the resolved enabled flag is true exactly when the enable variable is
set to a string whose lowercasing is `"true"`, `"1"` or `"yes"`; any other
value, and the unset case, resolve to false. -/
theorem c7_enable_flag (env : Env) (w : SSHCommandWrapper)
    (h : SSHCommandWrapper.init env = .ok w) :
    w.ssh_enabled = true ↔
      ∃ s, env.KUBECTL_SSH_ENABLED = some s ∧
        (lowerStr s = "true" ∨ lowerStr s = "1" ∨ lowerStr s = "yes") := by
  rw [init_ok_val env w h]
  show parseEnabled (env.KUBECTL_SSH_ENABLED.getD "false") = true ↔ _
  cases henv : env.KUBECTL_SSH_ENABLED with
  | none =>
    simp [parseEnabled, henv]
    decide
  | some s =>
    simp [parseEnabled, henv, Option.getD_some]
    tauto

theorem c7_witness :
    (⟨true, "u", "h", "22", ""⟩ : SSHCommandWrapper).ssh_enabled = true :=
  (c7_enable_flag ⟨some "YES", some "u", some "h", none, none⟩ ⟨true, "u", "h", "22", ""⟩
    rfl).mpr ⟨"YES", rfl, Or.inr (Or.inr (by decide))⟩

/-- C8: `wrap []` returns `[]` in local mode, and in remote mode a complete SSH
invocation whose trailing command argument is the empty string. -/
theorem c8_empty_cmd (expanduser : String → String) (w : SSHCommandWrapper) :
    (w.ssh_enabled = false → wrap expanduser w [] = [])
  ∧ (w.ssh_enabled = true → wrap expanduser w [] =
      ["ssh"]
        ++ (if w.ssh_port ≠ "" ∧ w.ssh_port ≠ "22" then ["-p", w.ssh_port] else [])
        ++ (if w.ssh_key ≠ "" then ["-i", expanduser w.ssh_key] else [])
        ++ ["-o", "StrictHostKeyChecking=no", "-o", "UserKnownHostsFile=/dev/null",
            "-o", "LogLevel=ERROR"]
        ++ [w.ssh_user ++ "@" ++ w.ssh_host]
        ++ [""]) := by
  constructor
  · intro h
    simp [wrap, wrap_command, h]
  · intro h
    have hj : joinArgs ([] : List String) = "" := rfl
    by_cases hp : w.ssh_port ≠ "" ∧ w.ssh_port ≠ "22" <;>
      by_cases hk : w.ssh_key ≠ "" <;>
        simp [wrap, wrap_command, h, hp, hk, hj]

theorem c8_witness :
    wrap id ⟨false, "u", "h", "2222", "k"⟩ [] = ([] : List String) ∧
      wrap id ⟨true, "u", "h", "2222", "k"⟩ [] =
        ["ssh", "-p", "2222", "-i", "k", "-o", "StrictHostKeyChecking=no",
          "-o", "UserKnownHostsFile=/dev/null", "-o", "LogLevel=ERROR", "u@h", ""] := by
  constructor
  · exact (c8_empty_cmd id ⟨false, "u", "h", "2222", "k"⟩).1 rfl
  · rw [(c8_empty_cmd id ⟨true, "u", "h", "2222", "k"⟩).2 rfl]
    decide

/-- C9: the singleton accessor constructs at most once per cached lifetime —
a getter call that returns an instance caches it, and later getter calls return
the same instance without consulting the environment; after `reset_ssh_wrapper`
the next getter call re-resolves a fresh instance from the environment. -/
theorem c9_singleton (env env₂ : Env) (inst : Option SSHCommandWrapper) :
    (∀ w inst', get_ssh_wrapper env inst = .ok (w, inst') →
        inst' = some w ∧ get_ssh_wrapper env₂ inst' = .ok (w, inst'))
  ∧ (get_ssh_wrapper env (reset_ssh_wrapper inst) =
      (SSHCommandWrapper.init env).map (fun w => (w, some w))) := by
  constructor
  · intro w inst' h
    cases inst with
    | some w₀ =>
      simp [get_ssh_wrapper] at h
      obtain ⟨rfl, rfl⟩ := h
      simp [get_ssh_wrapper]
    | none =>
      cases hinit : SSHCommandWrapper.init env with
      | error e => simp [get_ssh_wrapper, hinit] at h
      | ok w₁ =>
        simp [get_ssh_wrapper, hinit] at h
        obtain ⟨rfl, rfl⟩ := h
        simp [get_ssh_wrapper]
  · cases hinit : SSHCommandWrapper.init env with
    | error e => simp [get_ssh_wrapper, reset_ssh_wrapper, hinit, Except.map]
    | ok w₁ => simp [get_ssh_wrapper, reset_ssh_wrapper, hinit, Except.map]

theorem c9_witness :
    get_ssh_wrapper ⟨some "true", some "u", some "h", none, none⟩
        (some ⟨false, "", "", "22", ""⟩) =
      .ok (⟨false, "", "", "22", ""⟩, some ⟨false, "", "", "22", ""⟩) :=
  ((c9_singleton ⟨none, none, none, none, none⟩ ⟨some "true", some "u", some "h", none, none⟩
      none).1 ⟨false, "", "", "22", ""⟩ (some ⟨false, "", "", "22", ""⟩) rfl).2

/-- C10: `wrap_command` and `wrap_shell_command` leave the configuration and the
input command unchanged — in the explicit-state embedding, the configuration and
`cmd` threaded through both operations come out equal to their input values. -/
theorem c10_no_mutation (expanduser : String → String) (w : SSHCommandWrapper)
    (cmd : List String) (s : String) :
    (wrap_command expanduser w cmd).1 = w ∧ (wrap_command expanduser w cmd).2.1 = cmd ∧
      (wrap_shell_command expanduser w s).1 = w := by
  by_cases h : w.ssh_enabled = false <;>
    simp [wrap_command, wrap_shell_command, h]
